import Mathlib

/-!
Verification of the task/board and navigation stores of the svelte-kanban
repository (src/lib/stores/kanban.svelte.ts and
src/lib/stores/navigation.svelte.ts), as a shallow embedding.

Modelling conventions:
* JavaScript `Date` values are modelled as `Nat` (milliseconds since epoch).
  Each mutating operation that calls `new Date()` takes the fresh timestamp
  as an explicit `now` parameter.
* `crypto.randomUUID()` is modelled by passing the fresh id explicitly.
* `localStorage` persistence (`saveToStorage`) has no effect on the
  in-memory state and is not modelled; none of the verified properties
  mention it.
* TypeScript string-literal unions become inductive types; the literal
  `in-progress` is spelled `inProgress`.
-/

/-- Status union from src/lib/types/kanban.ts
(`todo | in-progress | testing | done`). -/
inductive TaskStatus where
  | todo
  | inProgress
  | testing
  | done
deriving DecidableEq

/-- Priority union (`low | medium | high`). -/
inductive TaskPriority where
  | low
  | medium
  | high
deriving DecidableEq

/-- A task, after `TaskItem` in src/lib/types/kanban.ts (the type module is
re-exported by src/lib/types/index.ts; optional fields `priority`, `tags`,
`aiGenerated` follow the store's usage and the data-model section of the
design documents). Dates are epoch milliseconds. -/
structure TaskItem where
  id : String
  title : String
  description : String
  status : TaskStatus
  priority : Option TaskPriority
  tags : Option (List String)
  aiGenerated : Option Bool
  createdAt : Nat
  updatedAt : Nat
deriving DecidableEq

/-- Argument of `addTask`: `Omit<TaskItem, 'id' | 'createdAt' | 'updatedAt'>`. -/
structure TaskFields where
  title : String
  description : String
  status : TaskStatus
  priority : Option TaskPriority
  tags : Option (List String)
  aiGenerated : Option Bool
deriving DecidableEq

/-- Argument of `updateTask`: `Partial<TaskItem>`. Every key may be absent
(`none`) or present (`some v`); for the optional task fields a present key
carries an `Option` value, present-but-undefined being `some none`.
Note that `Partial<TaskItem>` does include `id`, `createdAt` and
`updatedAt`. -/
structure TaskUpdates where
  id : Option String := none
  title : Option String := none
  description : Option String := none
  status : Option TaskStatus := none
  priority : Option (Option TaskPriority) := none
  tags : Option (Option (List String)) := none
  aiGenerated : Option (Option Bool) := none
  createdAt : Option Nat := none
  updatedAt : Option Nat := none
deriving DecidableEq

/-- The mutable state of `KanbanStore` (fields `tasks`, `isLoading`,
`error`, `selectedTask`; the static `columns` configuration carries no
task data and is omitted). -/
structure KanbanState where
  tasks : List TaskItem
  isLoading : Bool
  error : Option String
  selectedTask : Option TaskItem
deriving DecidableEq

/-- Initial store state: no tasks, not loading, no error, no selection. -/
def initialKanban : KanbanState :=
  { tasks := [], isLoading := false, error := none, selectedTask := none }

/-- Replace the first element satisfying `p` by its image under `f`
(the list-functional reading of "findIndex, then assign at that index",
as used by `updateTask` / `moveTask`, and of mutating the object returned
by `find`). -/
def setFirst (p : α → Bool) (f : α → α) : List α → List α
  | [] => []
  | a :: as => if p a then f a :: as else a :: setFirst p f as

/-- Remove the first element satisfying `p` (the list-functional reading of
"findIndex, then splice(index, 1)", as in `deleteTask` and
`removeNavigationItem`). -/
def eraseFirstP (p : α → Bool) : List α → List α
  | [] => []
  | a :: as => if p a then as else a :: eraseFirstP p as

/-- Source lines 113-124: `addTask` builds the task with a fresh id and
`new Date()` for both timestamps, appends it and returns it. -/
def addTask (s : KanbanState) (f : TaskFields) (freshId : String) (now : Nat) :
    TaskItem × KanbanState :=
  let newTask : TaskItem :=
    { id := freshId, title := f.title, description := f.description,
      status := f.status, priority := f.priority, tags := f.tags,
      aiGenerated := f.aiGenerated, createdAt := now, updatedAt := now }
  (newTask, { s with tasks := s.tasks ++ [newTask] })

/-- The spread merge `{ ...task, ...updates, updatedAt: new Date() }` of
`updateTask` (source lines 146-150): each present key of `updates`
overwrites the task field, and the trailing `updatedAt` entry overwrites
whatever the spread produced. -/
def mergeTask (t : TaskItem) (u : TaskUpdates) (now : Nat) : TaskItem :=
  { id := u.id.getD t.id,
    title := u.title.getD t.title,
    description := u.description.getD t.description,
    status := u.status.getD t.status,
    priority := u.priority.getD t.priority,
    tags := u.tags.getD t.tags,
    aiGenerated := u.aiGenerated.getD t.aiGenerated,
    createdAt := u.createdAt.getD t.createdAt,
    updatedAt := now }

/-- Source lines 139-154: `updateTask` looks up the first task with the
given id (findIndex), returns false when absent, otherwise replaces that
task by the spread merge and returns true. -/
def updateTask (s : KanbanState) (taskId : String) (u : TaskUpdates) (now : Nat) :
    Bool × KanbanState :=
  if s.tasks.any (fun t => t.id == taskId) then
    (true, { s with
      tasks := setFirst (fun t => t.id == taskId) (fun t => mergeTask t u now) s.tasks })
  else (false, s)

/-- Source lines 156-171: `deleteTask` returns false when no task has the
id; otherwise clears the selection when the selected task carries that id,
removes the task at the found index and returns true. -/
def deleteTask (s : KanbanState) (taskId : String) : Bool × KanbanState :=
  if s.tasks.any (fun t => t.id == taskId) then
    (true, { s with
      selectedTask :=
        match s.selectedTask with
        | some t => if t.id == taskId then none else some t
        | none => none,
      tasks := eraseFirstP (fun t => t.id == taskId) s.tasks })
  else (false, s)

/-- Source lines 173-184: `moveTask` finds the task (first match of
`find`), returns false when absent, otherwise sets `status` to the new
status, refreshes `updatedAt` and returns true. -/
def moveTask (s : KanbanState) (taskId : String) (newStatus : TaskStatus) (now : Nat) :
    Bool × KanbanState :=
  if s.tasks.any (fun t => t.id == taskId) then
    (true, { s with
      tasks := setFirst (fun t => t.id == taskId)
        (fun t => { t with status := newStatus, updatedAt := now }) s.tasks })
  else (false, s)

/-- Derived list `todoTasks` (filter on status `todo`). -/
def todoTasks (s : KanbanState) : List TaskItem :=
  s.tasks.filter (fun t => t.status == TaskStatus.todo)

/-- Derived list `inProgressTasks`. -/
def inProgressTasks (s : KanbanState) : List TaskItem :=
  s.tasks.filter (fun t => t.status == TaskStatus.inProgress)

/-- Derived list `doneTasks`. -/
def doneTasks (s : KanbanState) : List TaskItem :=
  s.tasks.filter (fun t => t.status == TaskStatus.done)

/-- Derived count `totalTasks = this.tasks.length`. -/
def totalTasks (s : KanbanState) : Nat :=
  s.tasks.length

/-- Derived count `completedTasks = this.doneTasks.length`. -/
def completedTasks (s : KanbanState) : Nat :=
  (doneTasks s).length

/-- Derived count `todoCount = this.todoTasks.length`. -/
def todoCount (s : KanbanState) : Nat :=
  (todoTasks s).length

/-- Derived count `inProgressCount`. -/
def inProgressCount (s : KanbanState) : Nat :=
  (inProgressTasks s).length

/-- Derived count `doneCount = this.doneTasks.length`. -/
def doneCount (s : KanbanState) : Nat :=
  (doneTasks s).length

/-- JavaScript `Math.round` on the non-negative rationals produced by the
store: round half toward positive infinity, i.e. the floor of `q + 1/2`. -/
def jsRound (q : ℚ) : ℤ :=
  (q + 1 / 2).floor

/-- Source lines 91-93: `completionRate` is
`totalTasks > 0 ? Math.round((completedTasks / totalTasks) * 100) : 0`. -/
def completionRate (s : KanbanState) : ℤ :=
  if 0 < totalTasks s then
    jsRound (((completedTasks s : ℚ) / (totalTasks s : ℚ)) * 100)
  else 0

/-- Source lines 221-226: `clearCompletedTasks` records the number of done
tasks, keeps only the tasks whose status is not `done`, and returns the
recorded count. The selection is not touched. -/
def clearCompletedTasks (s : KanbanState) : Nat × KanbanState :=
  ((doneTasks s).length,
   { s with tasks := s.tasks.filter (fun t => !(t.status == TaskStatus.done)) })

/-- Shape of the dynamic `data.board?.tasks` access in `importData`.
`missing` covers a missing/null board as well as an absent or otherwise
falsy `tasks` key (both make `data.board?.tasks` falsy); `nonArray` is a
truthy value without an array `map` method; `arr` is an actual array. -/
inductive TasksField where
  | missing : TasksField
  | nonArray : TasksField
  | arr : List TaskItem → TasksField
deriving DecidableEq

/-- The fields of an import payload that `importData` consumes: `version`
and `board.tasks` (tasks carry their serialized dates as epoch
milliseconds). `exportedAt`, the rest of the board and the statistics
block are never read by `importData`. -/
structure ImportPayload where
  version : Int
  exportedAt : Nat
  tasksField : TasksField
deriving DecidableEq

/-- The per-task rehydration of `importData`:
`{ ...task, createdAt: new Date(task.createdAt), updatedAt: new Date(task.updatedAt) }`.
On the epoch-millisecond model, re-creating a date from its serialized
value yields the same value. -/
def rehydrate (t : TaskItem) : TaskItem :=
  { t with createdAt := t.createdAt, updatedAt := t.updatedAt }

/-- Source lines 292-318: `importData`. When `version === 1` and
`board?.tasks` is truthy, the store is cleared (`tasks = []`,
`selectedTask = null`, `clearError`) and then `board.tasks.map(...)` runs:
for an actual array this replaces the tasks and returns true; for a truthy
non-array the `.map` call throws AFTER the clearing, so the catch block
sets the error and returns false with the tasks already emptied. When the
version is wrong or `board?.tasks` is falsy, the guard throws before any
mutation: the catch sets the error and returns false with the state
otherwise untouched. -/
def importData (s : KanbanState) (d : ImportPayload) : Bool × KanbanState :=
  if d.version = 1 then
    match d.tasksField with
    | TasksField.arr ts =>
        (true, { s with tasks := ts.map rehydrate, selectedTask := none, error := none })
    | TasksField.nonArray =>
        (false, { s with tasks := [], selectedTask := none,
                         error := some "Failed to import data" })
    | TasksField.missing =>
        (false, { s with error := some "Failed to import data" })
  else (false, { s with error := some "Failed to import data" })

/-- Source lines 278-290: `exportData` returns `{ version: 1, exportedAt:
new Date(), board: this.boardData, statistics: {...} }`; of the board,
`importData` only ever reads `tasks`, which is the store's task list. -/
def exportData (s : KanbanState) (now : Nat) : ImportPayload :=
  { version := 1, exportedAt := now, tasksField := TasksField.arr s.tasks }

/-- A navigation entry, after `NavigationItem` in src/lib/types/navigation.ts:
`{ id, label, icon?, href?, active, disabled? }`. The optional boolean
`disabled` is modelled as `Bool` with an absent key read as `false`, which
matches every (truthiness) use in the store. -/
structure NavItem where
  id : String
  label : String
  icon : Option String
  href : Option String
  active : Bool
  disabled : Bool
deriving DecidableEq

/-- Argument of `addNavigationItem`: `Omit<NavigationItem, 'active'>`. -/
structure NavItemFields where
  id : String
  label : String
  icon : Option String
  href : Option String
  disabled : Bool
deriving DecidableEq

/-- Argument of `updateNavigationItem`:
`Partial<Omit<NavigationItem, 'id'>>` (note that `id` is excluded here,
unlike in `updateTask`). -/
structure NavUpdates where
  label : Option String := none
  icon : Option (Option String) := none
  href : Option (Option String) := none
  active : Option Bool := none
  disabled : Option Bool := none
deriving DecidableEq

/-- The mutable state of `NavigationStore`: `activeItem`,
`sidebarCollapsed` and the entry list. -/
structure NavState where
  activeItem : String
  sidebarCollapsed : Bool
  items : List NavItem
deriving DecidableEq

/-- Initial navigation state: the single `kanban` entry, active and
enabled, and the sidebar expanded. -/
def navInit : NavState :=
  { activeItem := "kanban",
    sidebarCollapsed := false,
    items := [{ id := "kanban", label := "Kanban", icon := some "📋",
                href := none, active := true, disabled := false }] }

/-- Source lines 44-59: `setActiveItem` fails when no entry has the id or
the found entry is disabled; otherwise every entry's `active` flag becomes
`id === itemId` and `activeItem` is set. -/
def setActiveItem (s : NavState) (itemId : String) : Bool × NavState :=
  match s.items.find? (fun it => it.id == itemId) with
  | none => (false, s)
  | some target =>
    if target.disabled then (false, s)
    else
      (true, { s with
        items := s.items.map (fun it => { it with active := it.id == itemId }),
        activeItem := itemId })

/-- Source lines 71-85: `addNavigationItem` fails on a duplicate id,
otherwise appends the entry with `active: false`. -/
def addNavigationItem (s : NavState) (f : NavItemFields) : Bool × NavState :=
  if s.items.any (fun it => it.id == f.id) then (false, s)
  else
    (true, { s with items := s.items ++
      [{ id := f.id, label := f.label, icon := f.icon, href := f.href,
         active := false, disabled := f.disabled }] })

/-- Source lines 87-107: `removeNavigationItem` refuses to remove the
`kanban` entry, fails when the id is absent, otherwise falls back to
`setActiveItem('kanban')` when the removed entry is the active one and
splices the entry out at its index. The index is computed before the
fallback; since `setActiveItem` only rewrites `active` flags (ids and
positions unchanged), splicing at that index removes exactly the first
entry carrying the id. -/
def removeNavigationItem (s : NavState) (itemId : String) : Bool × NavState :=
  if itemId == "kanban" then (false, s)
  else if s.items.any (fun it => it.id == itemId) then
    let s1 := if s.activeItem == itemId then (setActiveItem s "kanban").2 else s
    (true, { s1 with items := eraseFirstP (fun it => it.id == itemId) s1.items })
  else (false, s)

/-- The `Object.assign(item, updates)` merge of `updateNavigationItem`:
each present key overwrites the entry field; `id` is not an assignable
key. -/
def mergeNavItem (it : NavItem) (u : NavUpdates) : NavItem :=
  { id := it.id,
    label := u.label.getD it.label,
    icon := u.icon.getD it.icon,
    href := u.href.getD it.href,
    active := u.active.getD it.active,
    disabled := u.disabled.getD it.disabled }

/-- Source lines 109-125: `updateNavigationItem` fails when the id is
absent; otherwise it merges the updates into the found entry in place and,
exactly when the updates contain `active: true`, additionally invokes
`setActiveItem` (which may itself fail, e.g. on a disabled entry, leaving
the merged flags as they are). -/
def updateNavigationItem (s : NavState) (itemId : String) (u : NavUpdates) :
    Bool × NavState :=
  if s.items.any (fun it => it.id == itemId) then
    let s1 := { s with
      items := setFirst (fun it => it.id == itemId) (fun it => mergeNavItem it u) s.items }
    if u.active = some true then (true, (setActiveItem s1 itemId).2)
    else (true, s1)
  else (false, s)

/-- Derived list `enabledItems`: the entries whose `disabled` flag is
falsy, in list order. -/
def enabledItems (s : NavState) : List NavItem :=
  s.items.filter (fun it => !it.disabled)

/-- Source lines 128-137: `getNextItem` walks the enabled entries
circularly from the entry whose id is `activeItem`. -/
def getNextItem (s : NavState) : Option NavItem :=
  let e := enabledItems s
  match e.findIdx? (fun it => it.id == s.activeItem) with
  | none => e.head?
  | some i => if i = e.length - 1 then e.head? else e[i + 1]?

/-- Source lines 139-148: `getPreviousItem`, the circular backward walk. -/
def getPreviousItem (s : NavState) : Option NavItem :=
  let e := enabledItems s
  match e.findIdx? (fun it => it.id == s.activeItem) with
  | none => e.getLast?
  | some i => if i = 0 then e.getLast? else e[i - 1]?

/-- Source lines 150-155: `navigateNext` activates the next enabled entry
when there is one. -/
def navigateNext (s : NavState) : NavState :=
  match getNextItem s with
  | some it => (setActiveItem s it.id).2
  | none => s

/-- Source lines 157-162: `navigatePrevious`. -/
def navigatePrevious (s : NavState) : NavState :=
  match getPreviousItem s with
  | some it => (setActiveItem s it.id).2
  | none => s

/-- Source lines 165-177: `reset` restores the single default entry. -/
def navReset : NavState :=
  navInit

/-- The operations quantified over by the navigation invariant: the
store's public mutators. -/
inductive NavOp where
  | set : String → NavOp
  | add : NavItemFields → NavOp
  | remove : String → NavOp
  | update : String → NavUpdates → NavOp
  | next : NavOp
  | prev : NavOp
  | resetNav : NavOp
deriving DecidableEq

/-- Whether an operation is an `updateNavigationItem` call. -/
def NavOp.isUpdate : NavOp → Bool
  | NavOp.update _ _ => true
  | _ => false

/-- One store mutation (return values dropped). -/
def navStep (s : NavState) : NavOp → NavState
  | NavOp.set i => (setActiveItem s i).2
  | NavOp.add f => (addNavigationItem s f).2
  | NavOp.remove i => (removeNavigationItem s i).2
  | NavOp.update i u => (updateNavigationItem s i u).2
  | NavOp.next => navigateNext s
  | NavOp.prev => navigatePrevious s
  | NavOp.resetNav => navReset

/-- Run a sequence of operations from the initial state. -/
def navRun (ops : List NavOp) : NavState :=
  ops.foldl navStep navInit

/-- Number of entries whose `active` flag is set. -/
def activeCount (s : NavState) : Nat :=
  (s.items.filter (fun it => it.active)).length

theorem setFirst_of_forall_not {p : α → Bool} {f : α → α} {l : List α}
    (h : ∀ x ∈ l, p x = false) : setFirst p f l = l := by
  induction l with
  | nil => rfl
  | cons a as ih =>
    simp only [setFirst, h a (List.mem_cons_self a as)]
    simp only [Bool.false_eq_true, if_false, List.cons.injEq, true_and]
    exact ih fun x hx => h x (List.mem_cons_of_mem a hx)

theorem find?_eq_some_decomp {p : α → Bool} {l : List α} {t : α}
    (h : l.find? p = some t) :
    ∃ pre post, l = pre ++ t :: post ∧ (∀ x ∈ pre, p x = false) ∧ p t = true := by
  induction l with
  | nil => simp [List.find?] at h
  | cons a as ih =>
    by_cases hpa : p a = true
    · rw [List.find?_cons_of_pos _ hpa] at h
      exact ⟨[], as, by simp [← Option.some_inj.mp h], by simp, by
        rw [Option.some_inj.mp h] at hpa; exact hpa⟩
    · rw [List.find?_cons_of_neg _ hpa] at h
      obtain ⟨pre, post, hl, hpre, hpt⟩ := ih h
      refine ⟨a :: pre, post, by simp [hl], ?_, hpt⟩
      intro x hx
      rcases List.mem_cons.mp hx with hxa | hxp
      · subst hxa; exact Bool.eq_false_iff.mpr hpa
      · exact hpre x hxp

theorem setFirst_append_cons {p : α → Bool} {f : α → α} {pre post : List α} {t : α}
    (hpre : ∀ x ∈ pre, p x = false) (hpt : p t = true) :
    setFirst p f (pre ++ t :: post) = pre ++ f t :: post := by
  induction pre with
  | nil => simp [setFirst, hpt]
  | cons a as ih =>
    have ha : p a = false := hpre a (List.mem_cons_self a as)
    simp only [List.cons_append, setFirst, ha, Bool.false_eq_true, if_false,
      List.cons.injEq, true_and]
    exact ih fun x hx => hpre x (List.mem_cons_of_mem a hx)

theorem eraseFirstP_append_cons {p : α → Bool} {pre post : List α} {t : α}
    (hpre : ∀ x ∈ pre, p x = false) (hpt : p t = true) :
    eraseFirstP p (pre ++ t :: post) = pre ++ post := by
  induction pre with
  | nil => simp [eraseFirstP, hpt]
  | cons a as ih =>
    have ha : p a = false := hpre a (List.mem_cons_self a as)
    simp only [List.cons_append, eraseFirstP, ha, Bool.false_eq_true, if_false,
      List.cons.injEq, true_and]
    exact ih fun x hx => hpre x (List.mem_cons_of_mem a hx)

theorem map_setFirst {p : α → Bool} {f : α → α} {g : α → β} {l : List α}
    (hf : ∀ a, g (f a) = g a) : (setFirst p f l).map g = l.map g := by
  induction l with
  | nil => rfl
  | cons a as ih =>
    by_cases hpa : p a = true
    · simp [setFirst, hpa, hf]
    · simp only [setFirst, hpa, Bool.false_eq_true, if_false, List.map_cons,
        List.cons.injEq, true_and]
      exact ih

theorem mem_setFirst {p : α → Bool} {f : α → α} {l : List α} {x : α}
    (h : x ∈ setFirst p f l) : x ∈ l ∨ ∃ a ∈ l, x = f a := by
  induction l with
  | nil => simp [setFirst] at h
  | cons a as ih =>
    by_cases hpa : p a = true
    · simp only [setFirst, hpa, if_true] at h
      rcases List.mem_cons.mp h with hx | hx
      · exact Or.inr ⟨a, List.mem_cons_self a as, hx⟩
      · exact Or.inl (List.mem_cons_of_mem a hx)
    · simp only [setFirst, hpa, Bool.false_eq_true, if_false] at h
      rcases List.mem_cons.mp h with hx | hx
      · exact Or.inl (by simp [hx])
      · rcases ih hx with h1 | ⟨b, hb, hxb⟩
        · exact Or.inl (List.mem_cons_of_mem a h1)
        · exact Or.inr ⟨b, List.mem_cons_of_mem a hb, hxb⟩

theorem eraseFirstP_sublist (p : α → Bool) (l : List α) :
    (eraseFirstP p l).Sublist l := by
  induction l with
  | nil => simp [eraseFirstP]
  | cons a as ih =>
    by_cases hpa : p a = true
    · simp [eraseFirstP, hpa, List.sublist_cons_self a as]
    · simpa [eraseFirstP, hpa] using List.Sublist.cons₂ a ih

theorem mem_eraseFirstP_of_not {p : α → Bool} {l : List α} {x : α}
    (hx : x ∈ l) (hpx : p x = false) : x ∈ eraseFirstP p l := by
  induction l with
  | nil => simp at hx
  | cons a as ih =>
    by_cases hpa : p a = true
    · rcases List.mem_cons.mp hx with h1 | h1
      · rw [h1] at hpx; rw [hpx] at hpa; cases hpa
      · simpa [eraseFirstP, hpa] using h1
    · rcases List.mem_cons.mp hx with h1 | h1
      · simp [eraseFirstP, hpa, h1]
      · simp only [eraseFirstP, hpa, Bool.false_eq_true, if_false, List.mem_cons]
        exact Or.inr (ih h1)

/-- C7: for every task collection, exporting and re-importing succeeds and
round-trips every task's id, title and status positionally (into any
store), with the task count preserved. -/
theorem exportImport_roundtrip (s s2 : KanbanState) (now : Nat) :
    (importData s2 (exportData s now)).fst = true ∧
    (importData s2 (exportData s now)).snd.tasks.map (fun t => (t.id, t.title, t.status)) =
      s.tasks.map (fun t => (t.id, t.title, t.status)) ∧
    (importData s2 (exportData s now)).snd.tasks.length = s.tasks.length := by
  have hre : ∀ t : TaskItem, rehydrate t = t := fun t => rfl
  simp [importData, exportData, hre]

/-- C8: adding a task and then deleting it by the returned id restores the
task collection exactly, assuming the freshly generated id collides with
no existing task id. -/
theorem addDelete_roundtrip (s : KanbanState) (f : TaskFields) (freshId : String)
    (now : Nat) (h : ∀ t ∈ s.tasks, t.id ≠ freshId) :
    (deleteTask (addTask s f freshId now).2 (addTask s f freshId now).1.id).fst = true ∧
    (deleteTask (addTask s f freshId now).2 (addTask s f freshId now).1.id).snd.tasks =
      s.tasks := by
  have hid : (addTask s f freshId now).1.id = freshId := rfl
  have htasks : (addTask s f freshId now).2.tasks = s.tasks ++ [(addTask s f freshId now).1] :=
    rfl
  have hpre : ∀ x ∈ s.tasks, (x.id == freshId) = false :=
    fun x hx => beq_eq_false_iff_ne.mpr (h x hx)
  have hpt : ((addTask s f freshId now).1.id == freshId) = true := by
    rw [hid]; exact beq_self_eq_true freshId
  have hany : ((addTask s f freshId now).2.tasks.any fun t => t.id == freshId) = true := by
    rw [htasks, List.any_eq_true]
    exact ⟨(addTask s f freshId now).1, by simp, hpt⟩
  have herase : eraseFirstP (fun t => t.id == freshId) (addTask s f freshId now).2.tasks =
      s.tasks := by
    rw [htasks]
    have h2 : eraseFirstP (fun t => t.id == freshId)
        (s.tasks ++ (addTask s f freshId now).1 :: ([] : List TaskItem)) =
        s.tasks ++ ([] : List TaskItem) :=
      eraseFirstP_append_cons hpre hpt
    simpa using h2
  rw [hid]
  simp [deleteTask, hany, herase]

/-- C9: a successful updateTask always stamps the merged task with the
fresh timestamp taken at call time: the spread merge sets updatedAt to the
fresh time for every partial (even one carrying its own updatedAt), every
task of the resulting collection is either an untouched original or
carries the fresh timestamp, and at least one task carries it. -/
theorem updateTask_overwrites_updatedAt (s : KanbanState) (taskId : String)
    (u : TaskUpdates) (now : Nat) (h : (updateTask s taskId u now).fst = true) :
    (∀ t, (mergeTask t u now).updatedAt = now) ∧
    (∀ t2 ∈ (updateTask s taskId u now).snd.tasks, t2 ∈ s.tasks ∨ t2.updatedAt = now) ∧
    (∃ t2 ∈ (updateTask s taskId u now).snd.tasks, t2.updatedAt = now) := by
  have hany : (s.tasks.any fun t => t.id == taskId) = true := by
    by_contra hc
    simp [updateTask, hc] at h
  have htasks : (updateTask s taskId u now).snd.tasks =
      setFirst (fun t => t.id == taskId) (fun t => mergeTask t u now) s.tasks := by
    simp [updateTask, hany]
  refine ⟨fun t => rfl, ?_, ?_⟩
  · intro t2 ht2
    rw [htasks] at ht2
    rcases mem_setFirst ht2 with h1 | ⟨a, _, h2⟩
    · exact Or.inl h1
    · exact Or.inr (by rw [h2]; rfl)
  · have hsome : (s.tasks.find? fun t => t.id == taskId).isSome := by
      rw [List.find?_isSome]
      exact List.any_eq_true.mp hany
    obtain ⟨t, hft⟩ := Option.isSome_iff_exists.mp hsome
    obtain ⟨pre, post, hl, hpre, hpt⟩ := find?_eq_some_decomp hft
    refine ⟨mergeTask t u now, ?_, rfl⟩
    rw [htasks, hl, setFirst_append_cons hpre hpt]
    simp

/-- C10: clearCompletedTasks leaves the selected-task reference untouched,
even when the selected task has status done and is removed from the
collection by the call, whereas a successful deleteTask of the selected
task's id clears the selection. -/
theorem clearCompleted_keeps_selection :
    (∀ s : KanbanState, (clearCompletedTasks s).snd.selectedTask = s.selectedTask) ∧
    (∀ (s : KanbanState) (t : TaskItem), s.selectedTask = some t →
      t.status = TaskStatus.done →
      (clearCompletedTasks s).snd.selectedTask = some t ∧
      t ∉ (clearCompletedTasks s).snd.tasks) ∧
    (∀ (s : KanbanState) (t : TaskItem), s.selectedTask = some t →
      (deleteTask s t.id).fst = true →
      (deleteTask s t.id).snd.selectedTask = none) := by
  refine ⟨fun s => rfl, ?_, ?_⟩
  · intro s t hsel hdone
    refine ⟨by rw [← hsel]; rfl, ?_⟩
    intro hmem
    have := (List.mem_filter.mp hmem).2
    rw [hdone] at this
    simp at this
  · intro s t hsel h
    have hany : (s.tasks.any fun x => x.id == t.id) = true := by
      by_contra hc
      simp [deleteTask, hc] at h
    simp [deleteTask, hany, hsel]

/-- A small concrete task used by the concrete instances below. -/
def mkTask (i : String) (st : TaskStatus) : TaskItem :=
  { id := i, title := i, description := "", status := st, priority := none,
    tags := none, aiGenerated := none, createdAt := 0, updatedAt := 0 }

/-- A store holding the single task `t1` (status todo). -/
def oneTaskState : KanbanState :=
  { tasks := [mkTask "t1" TaskStatus.todo], isLoading := false, error := none,
    selectedTask := none }

/-- C8 witness: the round-trip evaluated on the empty store. -/
theorem addDelete_roundtrip_witness :
    (deleteTask (addTask initialKanban ⟨"W", "", TaskStatus.todo, none, none, none⟩ "w1" 3).2
      (addTask initialKanban ⟨"W", "", TaskStatus.todo, none, none, none⟩ "w1" 3).1.id).fst =
      true ∧
    (deleteTask (addTask initialKanban ⟨"W", "", TaskStatus.todo, none, none, none⟩ "w1" 3).2
      (addTask initialKanban ⟨"W", "", TaskStatus.todo, none, none, none⟩ "w1" 3).1.id).snd.tasks =
      initialKanban.tasks :=
  addDelete_roundtrip initialKanban ⟨"W", "", TaskStatus.todo, none, none, none⟩ "w1" 3
    (by decide)

/-- C9 witness: updating `t1` with a partial that carries its own
updatedAt value 999 still stamps the task with the call-time value 7. -/
theorem updateTask_overwrites_updatedAt_witness :
    (∀ t, (mergeTask t { updatedAt := some 999 } 7).updatedAt = 7) ∧
    (∀ t2 ∈ (updateTask oneTaskState "t1" { updatedAt := some 999 } 7).snd.tasks,
      t2 ∈ oneTaskState.tasks ∨ t2.updatedAt = 7) ∧
    (∃ t2 ∈ (updateTask oneTaskState "t1" { updatedAt := some 999 } 7).snd.tasks,
      t2.updatedAt = 7) :=
  updateTask_overwrites_updatedAt oneTaskState "t1" { updatedAt := some 999 } 7 (by decide)

/-- The store whose selected task is the done task `d1`. -/
def doneSelState : KanbanState :=
  { tasks := [mkTask "d1" TaskStatus.done], isLoading := false, error := none,
    selectedTask := some (mkTask "d1" TaskStatus.done) }

/-- C10 witness: on a store whose selected task is done,
clearCompletedTasks keeps the stale selection while deleteTask clears it. -/
theorem clearCompleted_keeps_selection_witness :
    (clearCompletedTasks doneSelState).snd.selectedTask =
      some (mkTask "d1" TaskStatus.done) ∧
    mkTask "d1" TaskStatus.done ∉ (clearCompletedTasks doneSelState).snd.tasks ∧
    (deleteTask doneSelState (mkTask "d1" TaskStatus.done).id).snd.selectedTask = none :=
  ⟨(clearCompleted_keeps_selection.2.1 doneSelState (mkTask "d1" TaskStatus.done) rfl rfl).1,
   (clearCompleted_keeps_selection.2.1 doneSelState (mkTask "d1" TaskStatus.done) rfl rfl).2,
   clearCompleted_keeps_selection.2.2 doneSelState (mkTask "d1" TaskStatus.done) rfl (by decide)⟩

/-- C3 counterexample: updateTask called with a partial that contains an
id field does change the task's id — `Partial<TaskItem>` includes `id`
and the spread merge applies it, so ids are not immutable under arbitrary
partial-field arguments. -/
theorem updateTask_can_change_id :
    (updateTask oneTaskState "t1" { id := some "hijacked" } 5).fst = true ∧
    (updateTask oneTaskState "t1" { id := some "hijacked" } 5).snd.tasks.map
      (fun t => t.id) = ["hijacked"] ∧
    oneTaskState.tasks.map (fun t => t.id) = ["t1"] := by
  decide

/-- C3 amended: moveTask never changes any task's id, and updateTask
preserves every task's id whenever the partial-fields argument does not
itself contain an id field. -/
theorem taskIds_immutable (s : KanbanState) (taskId : String) (u : TaskUpdates)
    (st : TaskStatus) (now : Nat) (hu : u.id = none) :
    (updateTask s taskId u now).snd.tasks.map (fun t => t.id) =
      s.tasks.map (fun t => t.id) ∧
    (moveTask s taskId st now).snd.tasks.map (fun t => t.id) =
      s.tasks.map (fun t => t.id) := by
  constructor
  · by_cases hany : (s.tasks.any fun t => t.id == taskId) = true
    · simp only [updateTask, hany, if_true]
      exact map_setFirst fun a => by simp [mergeTask, hu]
    · simp [updateTask, hany]
  · by_cases hany : (s.tasks.any fun t => t.id == taskId) = true
    · simp only [moveTask, hany, if_true]
      exact map_setFirst fun a => rfl
    · simp [moveTask, hany]

/-- C3 witness: the amended statement evaluated on the one-task store with
an empty partial. -/
theorem taskIds_immutable_witness :
    (updateTask oneTaskState "t1" {} 5).snd.tasks.map (fun t => t.id) =
      oneTaskState.tasks.map (fun t => t.id) ∧
    (moveTask oneTaskState "t1" TaskStatus.done 5).snd.tasks.map (fun t => t.id) =
      oneTaskState.tasks.map (fun t => t.id) :=
  taskIds_immutable oneTaskState "t1" {} TaskStatus.done 5 rfl

/-- C5: moveTask returns false and changes nothing when no task has the
id; when the first task with the id is `t`, it returns true and replaces
exactly that occurrence by `t` with the new status and the fresh
timestamp; and when `t` is currently todo, moving it to in-progress
decreases todoCount by one, increases inProgressCount by one and (the
clock having advanced past the old updatedAt) leaves the moved task with
a strictly greater updatedAt. -/
theorem moveTask_spec (s : KanbanState) (taskId : String) (st : TaskStatus) (now : Nat) :
    ((∀ x ∈ s.tasks, x.id ≠ taskId) → moveTask s taskId st now = (false, s)) ∧
    (∀ t, s.tasks.find? (fun x => x.id == taskId) = some t →
      (moveTask s taskId st now).fst = true ∧
      ∃ pre post, s.tasks = pre ++ t :: post ∧
        (moveTask s taskId st now).snd.tasks =
          pre ++ { t with status := st, updatedAt := now } :: post) ∧
    (∀ t, s.tasks.find? (fun x => x.id == taskId) = some t →
      t.status = TaskStatus.todo → st = TaskStatus.inProgress → t.updatedAt < now →
      todoCount (moveTask s taskId st now).snd + 1 = todoCount s ∧
      inProgressCount (moveTask s taskId st now).snd = inProgressCount s + 1 ∧
      ∃ m ∈ (moveTask s taskId st now).snd.tasks,
        m.id = t.id ∧ t.updatedAt < m.updatedAt) := by
  refine ⟨?_, ?_, ?_⟩
  · intro h
    have hany : (s.tasks.any fun x => x.id == taskId) = false := by
      rw [List.any_eq_false]
      intro x hx
      simpa using h x hx
    simp [moveTask, hany]
  · intro t hft
    obtain ⟨pre, post, hl, hpre, hpt⟩ := find?_eq_some_decomp hft
    have hany : (s.tasks.any fun x => x.id == taskId) = true :=
      List.any_eq_true.mpr ⟨t, by rw [hl]; simp, hpt⟩
    refine ⟨by simp [moveTask, hany], pre, post, hl, ?_⟩
    simp only [moveTask, hany, if_true]
    rw [hl, setFirst_append_cons hpre hpt]
  · intro t hft hstatus hst hlt
    subst hst
    obtain ⟨pre, post, hl, hpre, hpt⟩ := find?_eq_some_decomp hft
    have hany : (s.tasks.any fun x => x.id == taskId) = true :=
      List.any_eq_true.mpr ⟨t, by rw [hl]; simp, hpt⟩
    have htasks : (moveTask s taskId TaskStatus.inProgress now).snd.tasks =
        pre ++ { t with status := TaskStatus.inProgress, updatedAt := now } :: post := by
      simp only [moveTask, hany, if_true]
      rw [hl, setFirst_append_cons hpre hpt]
    refine ⟨?_, ?_, ?_⟩
    · simp only [todoCount, todoTasks, htasks, hl, List.filter_append, List.filter_cons,
        List.length_append, hstatus]
      simp only [beq_self_eq_true, if_true, beq_iff_eq, List.length_cons]
      simp only [show (TaskStatus.inProgress = TaskStatus.todo) = False by simp, if_false]
      omega
    · simp only [inProgressCount, inProgressTasks, htasks, hl, List.filter_append,
        List.filter_cons, List.length_append, hstatus]
      simp only [beq_self_eq_true, if_true, beq_iff_eq, List.length_cons]
      simp only [show (TaskStatus.todo = TaskStatus.inProgress) = False by simp, if_false]
      omega
    · refine ⟨{ t with status := TaskStatus.inProgress, updatedAt := now }, ?_, rfl, hlt⟩
      rw [htasks]
      simp

/-- C5 witness: the move evaluated on the one-task store (absent id, then
the todo-to-in-progress move at time 9). -/
theorem moveTask_spec_witness :
    moveTask oneTaskState "zz" TaskStatus.done 5 = (false, oneTaskState) ∧
    (moveTask oneTaskState "t1" TaskStatus.inProgress 9).fst = true ∧
    todoCount (moveTask oneTaskState "t1" TaskStatus.inProgress 9).snd + 1 =
      todoCount oneTaskState ∧
    inProgressCount (moveTask oneTaskState "t1" TaskStatus.inProgress 9).snd =
      inProgressCount oneTaskState + 1 ∧
    ∃ m ∈ (moveTask oneTaskState "t1" TaskStatus.inProgress 9).snd.tasks,
      m.id = (mkTask "t1" TaskStatus.todo).id ∧
      (mkTask "t1" TaskStatus.todo).updatedAt < m.updatedAt := by
  have h1 := (moveTask_spec oneTaskState "zz" TaskStatus.done 5).1 (by decide)
  have h2 := ((moveTask_spec oneTaskState "t1" TaskStatus.inProgress 9).2.1
    (mkTask "t1" TaskStatus.todo) (by decide)).1
  have h3 := (moveTask_spec oneTaskState "t1" TaskStatus.inProgress 9).2.2
    (mkTask "t1" TaskStatus.todo) (by decide) rfl rfl (by decide)
  exact ⟨h1, h2, h3.1, h3.2.1, h3.2.2⟩

/-- The three-task store of the statistics example: statuses todo, todo,
done added through addTask. -/
def threeTaskState : KanbanState :=
  (addTask (addTask (addTask initialKanban
    ⟨"A", "", TaskStatus.todo, none, none, none⟩ "a" 0).2
    ⟨"B", "", TaskStatus.todo, none, none, none⟩ "b" 1).2
    ⟨"C", "", TaskStatus.done, none, none, none⟩ "c" 2).2

/-- C4: completionRate is the rounded percentage of done tasks, is exactly
0 on an empty collection, and on the three-task store (todo, todo, done)
the statistics are totalTasks 3, completionRate 33, todoCount 2. -/
theorem completionRate_spec :
    (∀ s : KanbanState, totalTasks s = 0 → completionRate s = 0) ∧
    (∀ s : KanbanState, 0 < totalTasks s →
      completionRate s = jsRound (100 * (doneCount s : ℚ) / (totalTasks s : ℚ))) ∧
    totalTasks threeTaskState = 3 ∧ completionRate threeTaskState = 33 ∧
    todoCount threeTaskState = 2 := by
  refine ⟨?_, ?_, ?_, ?_, ?_⟩
  · intro s h
    simp [completionRate, h]
  · intro s h
    simp only [completionRate, if_pos h]
    have hdc : completedTasks s = doneCount s := rfl
    rw [hdc, div_mul_eq_mul_div, mul_comm]
  · rfl
  · have h1 : completedTasks threeTaskState = 1 := rfl
    have h2 : totalTasks threeTaskState = 3 := rfl
    have h3 : 0 < totalTasks threeTaskState := by rw [h2]; norm_num
    have hq : ∀ q : ℚ, q.floor = ⌊q⌋ := fun q => by
      rw [Rat.floor_def', Rat.floor_def]
    have harg : ((completedTasks threeTaskState : ℚ) / (totalTasks threeTaskState : ℚ)) * 100
        + 1 / 2 = 203 / 6 := by
      rw [h1, h2]
      norm_num
    simp only [completionRate, jsRound, if_pos h3]
    rw [hq, harg, Int.floor_eq_iff]
    norm_num
  · rfl

/-- C4 witness: the two conditional parts evaluated on the empty store and
on the three-task store. -/
theorem completionRate_spec_witness :
    completionRate initialKanban = 0 ∧
    completionRate threeTaskState =
      jsRound (100 * (doneCount threeTaskState : ℚ) / (totalTasks threeTaskState : ℚ)) :=
  ⟨completionRate_spec.1 initialKanban rfl,
   completionRate_spec.2.1 threeTaskState (by decide)⟩

/-- C1 counterexample: a version-1 payload whose board.tasks is truthy but
not array-shaped makes importData return false and set the error message,
yet the existing in-memory task collection is NOT left unchanged — it has
been cleared before the array access throws. -/
theorem importData_nonArray_clears :
    (importData oneTaskState
      { version := 1, exportedAt := 0, tasksField := TasksField.nonArray }).fst = false ∧
    (importData oneTaskState
      { version := 1, exportedAt := 0, tasksField := TasksField.nonArray }).snd.error =
      some "Failed to import data" ∧
    (importData oneTaskState
      { version := 1, exportedAt := 0, tasksField := TasksField.nonArray }).snd.tasks ≠
      oneTaskState.tasks := by
  refine ⟨rfl, rfl, ?_⟩
  intro h
  simp [importData, oneTaskState] at h

/-- C1 amended: importData returns true and replaces the collection
exactly when version is 1 and board.tasks is array-shaped; a wrong version
or a missing/falsy board.tasks returns false, sets the error message and
leaves the state untouched; but a version-1 payload whose board.tasks is
truthy and not array-shaped returns false and sets the error with the task
collection cleared (and the selection reset), not left unchanged. -/
theorem importData_spec (s : KanbanState) (d : ImportPayload) :
    (∀ ts, d.version = 1 → d.tasksField = TasksField.arr ts →
      importData s d =
        (true, { s with tasks := ts.map rehydrate, selectedTask := none, error := none })) ∧
    (d.version ≠ 1 →
      importData s d = (false, { s with error := some "Failed to import data" })) ∧
    (d.version = 1 → d.tasksField = TasksField.missing →
      importData s d = (false, { s with error := some "Failed to import data" })) ∧
    (d.version = 1 → d.tasksField = TasksField.nonArray →
      importData s d =
        (false,
         { s with
           tasks := [], selectedTask := none, error := some "Failed to import data" })) := by
  refine ⟨?_, ?_, ?_, ?_⟩
  · intro ts h1 h2
    simp [importData, h1, h2]
  · intro h
    simp [importData, h]
  · intro h1 h2
    simp [importData, h1, h2]
  · intro h1 h2
    simp [importData, h1, h2]

/-- C1 witness: the amended statement evaluated on a wrong-version payload
and on an accepted empty-array payload. -/
theorem importData_spec_witness :
    importData initialKanban { version := 2, exportedAt := 0, tasksField := TasksField.missing } =
      (false, { initialKanban with error := some "Failed to import data" }) ∧
    importData initialKanban { version := 1, exportedAt := 0, tasksField := TasksField.arr [] } =
      (true,
       { initialKanban with
         tasks := ([] : List TaskItem).map rehydrate, selectedTask := none,
         error := none }) :=
  ⟨(importData_spec initialKanban
      { version := 2, exportedAt := 0, tasksField := TasksField.missing }).2.1 (by decide),
   (importData_spec initialKanban
      { version := 1, exportedAt := 0, tasksField := TasksField.arr [] }).1 [] rfl rfl⟩

/-- The reachable-state invariant of the navigation store: entry ids are
duplicate-free, the protected kanban entry is present and enabled, the
active flags mirror the activeItem pointer, and the pointer refers to a
present entry. -/
def NavInv (s : NavState) : Prop :=
  (s.items.map (fun it => it.id)).Nodup ∧
  (∃ k ∈ s.items, k.id = "kanban" ∧ k.disabled = false) ∧
  (∀ it ∈ s.items, it.active = (it.id == s.activeItem)) ∧
  s.activeItem ∈ s.items.map (fun it => it.id)

theorem navInv_init : NavInv navInit := by
  refine ⟨by simp [navInit], ?_, ?_, by simp [navInit]⟩
  · exact ⟨{ id := "kanban", label := "Kanban", icon := some "📋", href := none,
             active := true, disabled := false }, by simp [navInit], rfl, rfl⟩
  · intro it hit
    simp only [navInit, List.mem_singleton] at hit
    subst hit
    rfl

theorem filter_active_length {a : String} :
    ∀ l : List NavItem, (∀ it ∈ l, it.active = (it.id == a)) →
      (l.map (fun it => it.id)).Nodup → a ∈ l.map (fun it => it.id) →
      (l.filter (fun it => it.active)).length = 1 := by
  intro l
  induction l with
  | nil => intro _ _ hmem; simp at hmem
  | cons x xs ih =>
    intro hpt hnd hmem
    have hx : x.active = (x.id == a) := hpt x (List.mem_cons_self x xs)
    by_cases hxa : x.id = a
    · have hxact : x.active = true := by rw [hx, hxa, beq_self_eq_true]
      have hrest : xs.filter (fun it => it.active) = [] := by
        rw [List.filter_eq_nil_iff]
        intro y hy
        have hya : y.id ≠ a := by
          intro hya
          have : a ∈ xs.map (fun it => it.id) := by
            rw [List.map_cons] at hnd
            exact hya ▸ List.mem_map_of_mem (fun it => it.id) hy
          rw [List.map_cons] at hnd
          exact (List.nodup_cons.mp hnd).1 (hxa ▸ this)
        rw [hpt y (List.mem_cons_of_mem x hy), Bool.not_eq_true, beq_eq_false_iff_ne]
        exact hya
      simp [List.filter_cons, hxact, hrest]
    · have hxact : x.active = false := by
        rw [hx]; exact beq_eq_false_iff_ne.mpr hxa
      have hmem2 : a ∈ xs.map (fun it => it.id) := by
        rcases List.mem_map.mp hmem with ⟨y, hy, hya⟩
        rcases List.mem_cons.mp hy with h1 | h1
        · subst h1; exact absurd hya hxa
        · rw [← hya]; exact List.mem_map_of_mem (fun it => it.id) h1
      have hnd2 : (xs.map (fun it => it.id)).Nodup := by
        rw [List.map_cons] at hnd
        exact (List.nodup_cons.mp hnd).2
      have := ih (fun it hit => hpt it (List.mem_cons_of_mem x hit)) hnd2 hmem2
      simp [List.filter_cons, hxact, this]

theorem navInv_activeCount {s : NavState} (h : NavInv s) : activeCount s = 1 :=
  filter_active_length s.items h.2.2.1 h.1 h.2.2.2

theorem setActiveItem_items_eq {s : NavState} {i : String} {t : NavItem}
    (hf : s.items.find? (fun it => it.id == i) = some t) (htd : t.disabled = false) :
    (setActiveItem s i).2 =
      { s with items := s.items.map (fun it => { it with active := it.id == i }),
               activeItem := i } := by
  simp [setActiveItem, hf, htd]

theorem setActiveItem_fail {s : NavState} {i : String}
    (h : ∀ t, s.items.find? (fun it => it.id == i) = some t → t.disabled = true) :
    (setActiveItem s i).2 = s := by
  cases hf : s.items.find? (fun it => it.id == i) with
  | none => simp [setActiveItem, hf]
  | some t => simp [setActiveItem, hf, h t hf]

theorem setActiveItem_inv {s : NavState} (i : String) (h : NavInv s) :
    NavInv (setActiveItem s i).2 := by
  obtain ⟨hnd, ⟨k, hk, hkid, hkd⟩, hpt, hmem⟩ := h
  cases hf : s.items.find? (fun it => it.id == i) with
  | none =>
    rw [setActiveItem_fail (fun t ht => by rw [ht] at hf; cases hf)]
    exact ⟨hnd, ⟨k, hk, hkid, hkd⟩, hpt, hmem⟩
  | some t =>
    by_cases htd : t.disabled = true
    · rw [setActiveItem_fail (fun t2 ht2 => by rw [ht2] at hf; cases hf; exact htd)]
      exact ⟨hnd, ⟨k, hk, hkid, hkd⟩, hpt, hmem⟩
    · rw [setActiveItem_items_eq hf (Bool.not_eq_true _ ▸ htd)]
      refine ⟨?_, ?_, ?_, ?_⟩
      · have : (s.items.map (fun it => { it with active := it.id == i } : NavItem → NavItem)).map
            (fun it => it.id) = s.items.map (fun it => it.id) := by
          rw [List.map_map]; rfl
        rw [this]
        exact hnd
      · exact ⟨{ k with active := k.id == i }, List.mem_map_of_mem _ hk, hkid, hkd⟩
      · intro it hit
        rcases List.mem_map.mp hit with ⟨a, _, rfl⟩
        rfl
      · have hpt2 := List.find?_some hf
        have hti : t.id = i := beq_iff_eq.mp hpt2
        have hmem2 : t.id ∈ s.items.map (fun it => it.id) :=
          List.mem_map_of_mem _ (List.mem_of_find?_eq_some hf)
        show i ∈ (s.items.map (fun it => { it with active := it.id == i })).map
          (fun it => it.id)
        rw [List.map_map]
        show i ∈ s.items.map (fun it => it.id)
        rw [← hti]
        exact hmem2

theorem setActiveItem_kanban_of_inv {s : NavState}
    (hnd : (s.items.map (fun it => it.id)).Nodup)
    (hkan : ∃ k ∈ s.items, k.id = "kanban" ∧ k.disabled = false) :
    (setActiveItem s "kanban").fst = true ∧
    (setActiveItem s "kanban").2 =
      { s with items := s.items.map (fun it => { it with active := it.id == "kanban" }),
               activeItem := "kanban" } := by
  obtain ⟨k, hk, hkid, hkd⟩ := hkan
  have hsome : (s.items.find? fun it => it.id == "kanban").isSome := by
    rw [List.find?_isSome]
    exact ⟨k, hk, beq_iff_eq.mpr hkid⟩
  obtain ⟨t, hft⟩ := Option.isSome_iff_exists.mp hsome
  have htmem := List.mem_of_find?_eq_some hft
  have hpt2 := List.find?_some hft
  have htid : t.id = "kanban" := beq_iff_eq.mp hpt2
  have htk : t = k := List.inj_on_of_nodup_map hnd htmem hk (by rw [htid, hkid])
  have htd : t.disabled = false := by rw [htk]; exact hkd
  exact ⟨by simp [setActiveItem, hft, htd], setActiveItem_items_eq hft htd⟩

theorem addNavigationItem_inv {s : NavState} (f : NavItemFields) (h : NavInv s) :
    NavInv (addNavigationItem s f).2 := by
  obtain ⟨hnd, ⟨k, hk, hkid, hkd⟩, hpt, hmem⟩ := h
  by_cases hany : (s.items.any fun it => it.id == f.id) = true
  · simp only [addNavigationItem, hany, if_true]
    exact ⟨hnd, ⟨k, hk, hkid, hkd⟩, hpt, hmem⟩
  · have hfid : f.id ∉ s.items.map (fun it => it.id) := by
      intro hin
      rcases List.mem_map.mp hin with ⟨x, hx, hxid⟩
      exact hany (List.any_eq_true.mpr ⟨x, hx, beq_iff_eq.mpr hxid⟩)
    simp only [addNavigationItem, hany, Bool.false_eq_true, if_false]
    refine ⟨?_, ?_, ?_, ?_⟩
    · rw [List.map_append]
      rw [List.nodup_append]
      refine ⟨hnd, by simp, ?_⟩
      intro x hx hx2
      simp only [List.map_cons, List.map_nil, List.mem_singleton] at hx2
      rw [hx2] at hx
      exact hfid hx
    · exact ⟨k, List.mem_append_left _ hk, hkid, hkd⟩
    · intro it hit
      rcases List.mem_append.mp hit with h1 | h1
      · exact hpt it h1
      · simp only [List.mem_singleton] at h1
        subst h1
        have hne : f.id ≠ s.activeItem := fun he => hfid (he ▸ hmem)
        simp only []
        exact (beq_eq_false_iff_ne.mpr hne).symm
    · rw [List.map_append]
      exact List.mem_append_left _ hmem

theorem removeNavigationItem_active_eq {s : NavState} {i : String}
    (hik : i ≠ "kanban") (hact : s.activeItem = i)
    (hex : ∃ x ∈ s.items, x.id = i)
    (hkan : ∃ k ∈ s.items, k.id = "kanban" ∧ k.disabled = false)
    (hnd : (s.items.map (fun it => it.id)).Nodup) :
    (removeNavigationItem s i).fst = true ∧
    (removeNavigationItem s i).snd.activeItem = "kanban" ∧
    ∀ it ∈ (removeNavigationItem s i).snd.items, it.active = (it.id == "kanban") := by
  obtain ⟨x, hx, hxi⟩ := hex
  have hbeq : (i == "kanban") = false := beq_eq_false_iff_ne.mpr hik
  have hany : (s.items.any fun it => it.id == i) = true :=
    List.any_eq_true.mpr ⟨x, hx, beq_iff_eq.mpr hxi⟩
  have hactb : (s.activeItem == i) = true := beq_iff_eq.mpr hact
  obtain ⟨hfst, hset⟩ := setActiveItem_kanban_of_inv hnd hkan
  have hres : removeNavigationItem s i =
      (true, { (setActiveItem s "kanban").2 with
               items := eraseFirstP (fun it => it.id == i)
                 (setActiveItem s "kanban").2.items }) := by
    simp [removeNavigationItem, hbeq, hany, hactb]
  rw [hres]
  refine ⟨rfl, by rw [hset], ?_⟩
  intro it hit
  simp only [hset] at hit
  have hmem2 := (eraseFirstP_sublist _ _).subset hit
  rcases List.mem_map.mp hmem2 with ⟨a, _, rfl⟩
  rfl

theorem removeNavigationItem_inv {s : NavState} (i : String) (h : NavInv s) :
    NavInv (removeNavigationItem s i).2 := by
  by_cases hik : (i == "kanban") = true
  · simp only [removeNavigationItem, hik, if_true]
    exact h
  · by_cases hany : (s.items.any fun it => it.id == i) = true
    · have hine : i ≠ "kanban" := fun he => by rw [he] at hik; simp at hik
      by_cases hact : (s.activeItem == i) = true
      · obtain ⟨hnd, hkan, hpt, hmem⟩ := h
        obtain ⟨hfst, hset⟩ := setActiveItem_kanban_of_inv hnd hkan
        have hinv1 : NavInv (setActiveItem s "kanban").2 := setActiveItem_inv "kanban"
          ⟨hnd, hkan, hpt, hmem⟩
        obtain ⟨hnd1, ⟨k1, hk1, hk1id, hk1d⟩, hpt1, hmem1⟩ := hinv1
        have hne1 : (setActiveItem s "kanban").2.activeItem = "kanban" := by rw [hset]
        have hres : (removeNavigationItem s i).2 =
            { (setActiveItem s "kanban").2 with
              items := eraseFirstP (fun it => it.id == i)
                (setActiveItem s "kanban").2.items } := by
          simp [removeNavigationItem, hik, hany, hact]
        rw [hres]
        have hsub : (eraseFirstP (fun it => it.id == i)
            (setActiveItem s "kanban").2.items).Sublist (setActiveItem s "kanban").2.items :=
          eraseFirstP_sublist _ _
        refine ⟨?_, ?_, ?_, ?_⟩
        · exact hnd1.sublist (hsub.map (fun it => it.id))
        · refine ⟨k1, ?_, hk1id, hk1d⟩
          exact mem_eraseFirstP_of_not hk1
            (beq_eq_false_iff_ne.mpr (by rw [hk1id]; exact fun he => hine he.symm))
        · intro it hit
          exact hpt1 it (hsub.subset hit)
        · rcases List.mem_map.mp hmem1 with ⟨w, hw, hwid⟩
          have hwp : (w.id == i) = false := by
            rw [hwid, hne1]
            exact beq_eq_false_iff_ne.mpr (fun he => hine he.symm)
          have : w ∈ eraseFirstP (fun it => it.id == i) (setActiveItem s "kanban").2.items :=
            mem_eraseFirstP_of_not hw hwp
          rw [← hwid]
          exact List.mem_map_of_mem _ this
      · obtain ⟨hnd, ⟨k, hk, hkid, hkd⟩, hpt, hmem⟩ := h
        have hres : (removeNavigationItem s i).2 =
            { s with items := eraseFirstP (fun it => it.id == i) s.items } := by
          simp [removeNavigationItem, hik, hany, hact]
        rw [hres]
        have hsub : (eraseFirstP (fun it => it.id == i) s.items).Sublist s.items :=
          eraseFirstP_sublist _ _
        refine ⟨?_, ?_, ?_, ?_⟩
        · exact hnd.sublist (hsub.map (fun it => it.id))
        · refine ⟨k, ?_, hkid, hkd⟩
          have hine : i ≠ "kanban" := fun he => by rw [he] at hik; simp at hik
          exact mem_eraseFirstP_of_not hk
            (beq_eq_false_iff_ne.mpr (by rw [hkid]; exact fun he => hine he.symm))
        · intro it hit
          exact hpt it (hsub.subset hit)
        · rcases List.mem_map.mp hmem with ⟨w, hw, hwid⟩
          have hwp : (w.id == i) = false := by
            rw [hwid]
            exact beq_eq_false_iff_ne.mpr (fun he => hact (beq_iff_eq.mpr he))
          have : w ∈ eraseFirstP (fun it => it.id == i) s.items :=
            mem_eraseFirstP_of_not hw hwp
          rw [← hwid]
          exact List.mem_map_of_mem _ this
    · simp only [removeNavigationItem, hik, Bool.false_eq_true, if_false, hany]
      exact h

theorem navigateNext_inv {s : NavState} (h : NavInv s) : NavInv (navigateNext s) := by
  unfold navigateNext
  cases getNextItem s with
  | none => exact h
  | some it => exact setActiveItem_inv it.id h

theorem navigatePrevious_inv {s : NavState} (h : NavInv s) :
    NavInv (navigatePrevious s) := by
  unfold navigatePrevious
  cases getPreviousItem s with
  | none => exact h
  | some it => exact setActiveItem_inv it.id h

theorem navStep_inv {s : NavState} {op : NavOp} (hop : op.isUpdate = false)
    (h : NavInv s) : NavInv (navStep s op) := by
  cases op with
  | set i => exact setActiveItem_inv i h
  | add f => exact addNavigationItem_inv f h
  | remove i => exact removeNavigationItem_inv i h
  | update i u => simp [NavOp.isUpdate] at hop
  | next => exact navigateNext_inv h
  | prev => exact navigatePrevious_inv h
  | resetNav => exact navInv_init

theorem foldl_navStep_inv :
    ∀ (ops : List NavOp) (s : NavState), (∀ op ∈ ops, op.isUpdate = false) →
      NavInv s → NavInv (ops.foldl navStep s) := by
  intro ops
  induction ops with
  | nil => intro s _ h; exact h
  | cons op rest ih =>
    intro s hops h
    rw [List.foldl_cons]
    exact ih (navStep s op) (fun o ho => hops o (List.mem_cons_of_mem op ho))
      (navStep_inv (hops op (List.mem_cons_self op rest)) h)

/-- C2 counterexample: a single successful
updateNavigationItem with active false on the active default entry leaves
the navigation store with zero active entries, refuting the
exactly-one-active invariant over the full operation set. -/
theorem updateNavigationItem_breaks_active :
    (updateNavigationItem navInit "kanban" { active := some false }).fst = true ∧
    activeCount (updateNavigationItem navInit "kanban" { active := some false }).snd = 0 := by
  decide

/-- C2 amended: after every sequence of setActiveItem, addNavigationItem,
removeNavigationItem, navigateNext, navigatePrevious and reset operations
(updateNavigationItem excluded) from the initial state, exactly one
navigation entry is active; and a successful setActiveItem marks exactly
the entry with the given id active and every other entry inactive.
updateNavigationItem can break the invariant (active false on the active
entry, or active true on a disabled entry). -/
theorem navigation_exactly_one_active :
    (∀ ops : List NavOp, (∀ op ∈ ops, op.isUpdate = false) →
      activeCount (navRun ops) = 1) ∧
    (∀ (s : NavState) (i : String), (setActiveItem s i).fst = true →
      ∀ it ∈ (setActiveItem s i).snd.items, it.active = (it.id == i)) := by
  constructor
  · intro ops hops
    exact navInv_activeCount (foldl_navStep_inv ops navInit hops navInv_init)
  · intro s i h it hit
    cases hf : s.items.find? (fun x => x.id == i) with
    | none => simp [setActiveItem, hf] at h
    | some t =>
      by_cases htd : t.disabled = true
      · simp [setActiveItem, hf, htd] at h
      · rw [setActiveItem_items_eq hf (Bool.not_eq_true _ ▸ htd)] at hit
        rcases List.mem_map.mp hit with ⟨a, _, rfl⟩
        rfl

/-- C2 witness: the amended statement evaluated on the add-then-activate
sequence and on activating the default entry of the initial state. -/
theorem navigation_exactly_one_active_witness :
    activeCount (navRun [NavOp.add ⟨"a", "A", none, none, false⟩, NavOp.set "a"]) = 1 ∧
    (∀ it ∈ (setActiveItem navInit "kanban").snd.items, it.active = (it.id == "kanban")) :=
  ⟨navigation_exactly_one_active.1
      [NavOp.add ⟨"a", "A", none, none, false⟩, NavOp.set "a"] (by decide),
   navigation_exactly_one_active.2 navInit "kanban" (by decide)⟩

/-- The reachable state in which an added entry `a` is active and the
default kanban entry has been disabled through updateNavigationItem. -/
def disabledKanbanState : NavState :=
  navRun [NavOp.add ⟨"a", "A", none, none, false⟩, NavOp.set "a",
          NavOp.update "kanban" { disabled := some true }]

/-- C6 counterexample: removing the active removable entry while the
default kanban entry is disabled succeeds, but the silent failure of the
setActiveItem fallback leaves the active pointer on the removed id and no
entry active — the active entry is not the default entry afterwards. -/
theorem removeNavigationItem_no_fallback :
    disabledKanbanState.activeItem = "a" ∧
    (removeNavigationItem disabledKanbanState "a").fst = true ∧
    (removeNavigationItem disabledKanbanState "a").snd.activeItem ≠ "kanban" ∧
    activeCount (removeNavigationItem disabledKanbanState "a").snd = 0 := by
  decide

/-- C6 amended: removeNavigationItem always fails on the protected id
kanban and on an id that is not present; and removing the currently active
entry falls back to the default entry provided the kanban entry is present
and enabled (with duplicate-free ids): afterwards the active pointer is
kanban and exactly the kanban entry is flagged active. When the kanban
entry has been disabled, the fallback fails silently and the active entry
is not the default (see the counterexample). -/
theorem removeNavigationItem_spec (s : NavState) (i : String) :
    (removeNavigationItem s "kanban").fst = false ∧
    (removeNavigationItem s "kanban").snd = s ∧
    ((∀ x ∈ s.items, x.id ≠ i) → removeNavigationItem s i = (false, s)) ∧
    (i ≠ "kanban" → s.activeItem = i → (∃ x ∈ s.items, x.id = i) →
      (∃ k ∈ s.items, k.id = "kanban" ∧ k.disabled = false) →
      (s.items.map (fun it => it.id)).Nodup →
      (removeNavigationItem s i).fst = true ∧
      (removeNavigationItem s i).snd.activeItem = "kanban" ∧
      ∀ it ∈ (removeNavigationItem s i).snd.items, it.active = (it.id == "kanban")) := by
  refine ⟨by simp [removeNavigationItem], by simp [removeNavigationItem], ?_, ?_⟩
  · intro h
    by_cases hik : i = "kanban"
    · subst hik
      simp [removeNavigationItem]
    · have hbeq : (i == "kanban") = false := beq_eq_false_iff_ne.mpr hik
      have hany : (s.items.any fun it => it.id == i) = false := by
        rw [List.any_eq_false]
        intro x hx
        simpa using h x hx
      simp [removeNavigationItem, hbeq, hany]
  · intro hik hact hex hkan hnd
    exact removeNavigationItem_active_eq hik hact hex hkan hnd

/-- The reachable state in which the added entry `a` is active and the
kanban entry is still enabled. -/
def removableActiveState : NavState :=
  navRun [NavOp.add ⟨"a", "A", none, none, false⟩, NavOp.set "a"]

/-- C6 witness: the amended statement evaluated on an absent id and on
removing the active entry `a` with the default entry enabled. -/
theorem removeNavigationItem_spec_witness :
    removeNavigationItem removableActiveState "zz" = (false, removableActiveState) ∧
    (removeNavigationItem removableActiveState "a").fst = true ∧
    (removeNavigationItem removableActiveState "a").snd.activeItem = "kanban" ∧
    ∀ it ∈ (removeNavigationItem removableActiveState "a").snd.items,
      it.active = (it.id == "kanban") := by
  have h1 := (removeNavigationItem_spec removableActiveState "zz").2.2.1 (by decide)
  have h2 := (removeNavigationItem_spec removableActiveState "a").2.2.2 (by decide)
    (by decide) (by decide) (by decide) (by decide)
  exact ⟨h1, h2.1, h2.2.1, h2.2.2⟩
